import Mathlib

set_option maxHeartbeats 1000000
set_option maxRecDepth 8192

/-
Verification development for the status-checker library: a shallow embedding
of the check-evaluation engine (CheckEvaluator), the minimal JSON-path
extractor, the shared value comparator, and the pure post-transport part of
StatusChecker.checkUrl, together with theorems settling the specification
claims.  JavaScript builtins used by the source (JSON.parse, JSON.stringify,
String(), Number(), parseInt, String.prototype.includes, RegExp) are modelled
explicitly; RegExp is kept abstract as a compile function that may fail,
since the claims depend only on regex compilation succeeding or failing, not
on the matching semantics of a particular pattern.
-/

namespace StatusChecker

/-- JSON values as produced by JSON.parse in the evaluator.  Numbers are
modelled as integers: every number the checks manipulate (status codes,
response times, array indices) is integral; fractional and exponent literals
are rejected by the parser model below. -/
inductive Json where
  | null : Json
  | bool (b : Bool) : Json
  | num (n : Int) : Json
  | str (s : String) : Json
  | arr (elems : List Json) : Json
  | obj (fields : List (String × Json)) : Json

/- Model of the JavaScript String() conversion (array elements render via
Array.prototype.join, where null renders as the empty string). -/
mutual
def jsRender : Json → String
  | .null => "null"
  | .bool b => if b then "true" else "false"
  | .num n => toString n
  | .str s => s
  | .arr elems => String.intercalate "," (jsRenderElems elems)
  | .obj _ => "[object Object]"

def jsRenderElems : List Json → List String
  | [] => []
  | Json.null :: rest => "" :: jsRenderElems rest
  | v :: rest => jsRender v :: jsRenderElems rest
end

/-- String() applied to a possibly-undefined value (none plays undefined). -/
def jsToString : Option Json → String
  | none => "undefined"
  | some v => jsRender v

/-- Escape one character the way JSON.stringify escapes string contents. -/
def escapeJsonChar (c : Char) : String :=
  if c = '"' then "\\\""
  else if c = '\\' then "\\\\"
  else if c = '\n' then "\\n"
  else if c = '\t' then "\\t"
  else if c = '\r' then "\\r"
  else String.mk [c]

/-- Escape a whole string for JSON.stringify. -/
def escapeJsonString (s : String) : String :=
  String.join (s.data.map escapeJsonChar)

/- Model of JSON.stringify on parsed JSON values. -/
mutual
def Json.stringify : Json → String
  | .null => "null"
  | .bool b => if b then "true" else "false"
  | .num n => toString n
  | .str s => "\"" ++ escapeJsonString s ++ "\""
  | .arr elems => "[" ++ String.intercalate "," (Json.stringifyElems elems) ++ "]"
  | .obj fields => "\x7b" ++ String.intercalate "," (Json.stringifyFields fields) ++ "\x7d"

def Json.stringifyElems : List Json → List String
  | [] => []
  | v :: rest => Json.stringify v :: Json.stringifyElems rest

def Json.stringifyFields : List (String × Json) → List String
  | [] => []
  | (k, v) :: rest =>
      ("\"" ++ escapeJsonString k ++ "\":" ++ Json.stringify v) :: Json.stringifyFields rest
end

/-- Decimal value of a digit list. -/
def digitsToNat (ds : List Char) : Nat :=
  ds.foldl (fun acc c => acc * 10 + (c.toNat - 48)) 0

/-- Value of the leading run of digits, or none when there is no digit. -/
def leadingDigitsVal (l : List Char) : Option Nat :=
  let ds := l.takeWhile Char.isDigit
  if ds.isEmpty then none else some (digitsToNat ds)

/-- Model of parseInt(s, 10) as the source applies it to an already-trimmed
status-code segment: an optional sign followed by at least one digit parses
(trailing garbage ignored, as parseInt does); anything else is NaN, modelled
as none. -/
def jsParseInt (s : String) : Option Int :=
  match s.data with
  | '-' :: rest => (leadingDigitsVal rest).map (fun v => -(v : Int))
  | '+' :: rest => (leadingDigitsVal rest).map (fun v => (v : Int))
  | rest => (leadingDigitsVal rest).map (fun v => (v : Int))

/-- Model of String.prototype.trim: strip whitespace from both ends. -/
def jsTrim (s : String) : String :=
  String.mk (((s.data.dropWhile Char.isWhitespace).reverse.dropWhile Char.isWhitespace).reverse)

/-- Model of String.prototype.toLowerCase (ASCII case folding). -/
def jsToLower (s : String) : String :=
  String.mk (s.data.map Char.toLower)

/-- Model of String.prototype.split on a one-character separator: always at
least one segment, the empty string giving one empty segment. -/
def splitOnChar (sep : Char) : List Char → List (List Char)
  | [] => [[]]
  | c :: rest =>
      if c = sep then [] :: splitOnChar sep rest
      else
        match splitOnChar sep rest with
        | s :: ss => (c :: s) :: ss
        | [] => [[c]]

/-- Model of Number(s) on a string: trimmed; empty means 0; otherwise the
whole remaining string must be a signed decimal integer literal, else NaN
(modelled as none).  Fractional, exponent and hex literals of JavaScript are
outside this integer-valued model; no claim depends on them. -/
def jsStringToNumber (s : String) : Option Int :=
  let t := jsTrim s
  if t.data.isEmpty then some 0
  else
    match t.data with
    | '-' :: rest =>
        if !rest.isEmpty && rest.all Char.isDigit then some (-(digitsToNat rest : Int)) else none
    | '+' :: rest =>
        if !rest.isEmpty && rest.all Char.isDigit then some ((digitsToNat rest : Int)) else none
    | rest =>
        if rest.all Char.isDigit then some ((digitsToNat rest : Int)) else none

/-- Model of Number(v) on a dynamic value: undefined is NaN, null is 0,
booleans are 0 or 1, numbers are themselves, strings parse as above, and
arrays and objects convert through their string rendering (the ToPrimitive
path), so Number of an empty array is 0 and Number of an object is NaN. -/
def jsToNumber : Option Json → Option Int
  | none => none
  | some Json.null => some 0
  | some (Json.bool b) => some (if b then 1 else 0)
  | some (Json.num n) => some n
  | some (Json.str s) => jsStringToNumber s
  | some v => jsStringToNumber (jsRender v)

/-- Model of String.prototype.includes: pat occurs contiguously in s. -/
def jsIncludes (s pat : String) : Bool :=
  decide (List.IsInfix pat.data s.data)

/-- JSON whitespace. -/
def isJsonWs (c : Char) : Bool :=
  c = ' ' || c = '\t' || c = '\n' || c = '\r'

/-- Drop leading JSON whitespace. -/
def skipWs (l : List Char) : List Char :=
  l.dropWhile isJsonWs

/-- Hexadecimal digit value. -/
def parseHexDigit (c : Char) : Option Nat :=
  if '0' ≤ c ∧ c ≤ '9' then some (c.toNat - 48)
  else if 'a' ≤ c ∧ c ≤ 'f' then some (c.toNat - 87)
  else if 'A' ≤ c ∧ c ≤ 'F' then some (c.toNat - 55)
  else none

/-- Parse the remainder of a JSON string literal (after the opening quote),
accumulating decoded characters in reverse. -/
def parseJsonStr : List Char → List Char → Except String (String × List Char)
  | _, [] => .error "Unterminated string in JSON"
  | acc, '"' :: rest => .ok (String.mk acc.reverse, rest)
  | acc, '\\' :: e :: rest =>
      if e = '"' then parseJsonStr ('"' :: acc) rest
      else if e = '\\' then parseJsonStr ('\\' :: acc) rest
      else if e = '/' then parseJsonStr ('/' :: acc) rest
      else if e = 'n' then parseJsonStr ('\n' :: acc) rest
      else if e = 't' then parseJsonStr ('\t' :: acc) rest
      else if e = 'r' then parseJsonStr ('\r' :: acc) rest
      else if e = 'b' then parseJsonStr ('\x08' :: acc) rest
      else if e = 'f' then parseJsonStr ('\x0c' :: acc) rest
      else if e = 'u' then
        match rest with
        | h1 :: h2 :: h3 :: h4 :: rest' =>
            match parseHexDigit h1, parseHexDigit h2, parseHexDigit h3, parseHexDigit h4 with
            | some a, some b, some c, some d =>
                parseJsonStr (Char.ofNat (((a * 16 + b) * 16 + c) * 16 + d) :: acc) rest'
            | _, _, _, _ => .error "Bad Unicode escape in JSON"
        | _ => .error "Bad Unicode escape in JSON"
      else .error "Bad escaped character in JSON"
  | _, ['\\'] => .error "Unterminated string in JSON"
  | acc, c :: rest => parseJsonStr (c :: acc) rest

/-- Split a character list into its leading digit run and the remainder. -/
def splitDigits (l : List Char) : List Char × List Char :=
  (l.takeWhile Char.isDigit, l.dropWhile Char.isDigit)

/-- Parse a JSON number (integer-valued model: a fractional part or exponent
is a parse error rather than a float). -/
def parseJsonNum (l : List Char) : Except String (Json × List Char) :=
  let p := match l with
    | '-' :: rest => (true, rest)
    | _ => (false, l)
  let ds := (splitDigits p.2).1
  let rest := (splitDigits p.2).2
  if ds.isEmpty then .error "Unexpected token in JSON"
  else
    match rest with
    | '.' :: _ => .error "Fractional JSON numbers are outside this model"
    | 'e' :: _ => .error "Exponent JSON numbers are outside this model"
    | 'E' :: _ => .error "Exponent JSON numbers are outside this model"
    | _ =>
        .ok (Json.num (if p.1 then -(digitsToNat ds : Int) else (digitsToNat ds : Int)), rest)

/-- Expect a literal character sequence. -/
def expectChars (lit : List Char) (l : List Char) : Option (List Char) :=
  if lit.isPrefixOf l then some (l.drop lit.length) else none

/-- Object-field accumulation with JavaScript duplicate-key semantics: the
first occurrence fixes the position, the last occurrence fixes the value. -/
def joinField (k : String) (v : Json) (fs : List (String × Json)) : List (String × Json) :=
  match fs.lookup k with
  | some v' => (k, v') :: fs.filter (fun kv => !(kv.1 == k))
  | none => (k, v) :: fs

/- Fuel-indexed recursive-descent JSON parser (model of JSON.parse). -/
mutual
def parseJsonVal : Nat → List Char → Except String (Json × List Char)
  | 0, _ => .error "JSON nesting too deep"
  | Nat.succ fuel, l =>
      match skipWs l with
      | [] => .error "Unexpected end of JSON input"
      | 'n' :: rest =>
          match expectChars ['u', 'l', 'l'] rest with
          | some rest' => .ok (Json.null, rest')
          | none => .error "Unexpected token in JSON"
      | 't' :: rest =>
          match expectChars ['r', 'u', 'e'] rest with
          | some rest' => .ok (Json.bool true, rest')
          | none => .error "Unexpected token in JSON"
      | 'f' :: rest =>
          match expectChars ['a', 'l', 's', 'e'] rest with
          | some rest' => .ok (Json.bool false, rest')
          | none => .error "Unexpected token in JSON"
      | '"' :: rest => (parseJsonStr [] rest).map (fun p => (Json.str p.1, p.2))
      | '[' :: rest =>
          match skipWs rest with
          | ']' :: rest' => .ok (Json.arr [], rest')
          | _ => (parseJsonArr fuel rest).map (fun p => (Json.arr p.1, p.2))
      | '\x7b' :: rest =>
          match skipWs rest with
          | '\x7d' :: rest' => .ok (Json.obj [], rest')
          | _ => (parseJsonObj fuel rest).map (fun p => (Json.obj p.1, p.2))
      | l' => parseJsonNum l'

def parseJsonArr : Nat → List Char → Except String (List Json × List Char)
  | 0, _ => .error "JSON nesting too deep"
  | Nat.succ fuel, l =>
      match parseJsonVal fuel l with
      | .error e => .error e
      | .ok (v, rest) =>
          match skipWs rest with
          | ',' :: rest' =>
              match parseJsonArr fuel rest' with
              | .error e => .error e
              | .ok (vs, rest'') => .ok (v :: vs, rest'')
          | ']' :: rest' => .ok ([v], rest')
          | _ => .error "Expected comma or closing bracket in JSON array"

def parseJsonObj : Nat → List Char → Except String (List (String × Json) × List Char)
  | 0, _ => .error "JSON nesting too deep"
  | Nat.succ fuel, l =>
      match skipWs l with
      | '"' :: rest =>
          match parseJsonStr [] rest with
          | .error e => .error e
          | .ok (k, rest1) =>
              match skipWs rest1 with
              | ':' :: rest2 =>
                  match parseJsonVal fuel rest2 with
                  | .error e => .error e
                  | .ok (v, rest3) =>
                      match skipWs rest3 with
                      | ',' :: rest4 =>
                          match parseJsonObj fuel rest4 with
                          | .error e => .error e
                          | .ok (fs, rest5) => .ok (joinField k v fs, rest5)
                      | '\x7d' :: rest4 => .ok ([(k, v)], rest4)
                      | _ => .error "Expected comma or closing brace in JSON object"
              | _ => .error "Expected colon in JSON object"
      | _ => .error "Expected string key in JSON object"
end

/-- Model of JSON.parse: parse one value, then require only whitespace. -/
def Json.parse (s : String) : Except String Json :=
  match parseJsonVal (2 * s.length + 2) s.data with
  | .error e => .error e
  | .ok (v, rest) =>
      if (skipWs rest).isEmpty then .ok v
      else .error "Unexpected non-whitespace character after JSON"

/-- Dropping a prefix by a predicate never lengthens a list. -/
theorem length_dropWhile_le_self (q : Char → Bool) : ∀ l : List Char,
    (l.dropWhile q).length ≤ l.length
  | [] => Nat.le_refl _
  | c :: rest => by
      rw [List.dropWhile_cons]
      by_cases h : q c = true
      · simp only [h, if_true]
        exact Nat.le_trans (length_dropWhile_le_self q rest) (Nat.le_succ _)
      · simp [h]

/-- Word character of the regex class used by the path normalizer. -/
def isWordChar (c : Char) : Bool :=
  c.isAlphanum || c = '_'

/-- Model of path.replace with the global bracket pattern replacing every
bracketed word-character group by a dot segment, scanning left to right and
advancing one character on failure, exactly as a global regex replace does. -/
def replaceBrackets : List Char → List Char
  | [] => []
  | c :: rest =>
      if c = '[' then
        let w := rest.takeWhile isWordChar
        let d := rest.dropWhile isWordChar
        if w ≠ [] ∧ d.head? = some ']' then
          '.' :: (w ++ replaceBrackets d.tail)
        else c :: replaceBrackets rest
      else c :: replaceBrackets rest
termination_by l => l.length
decreasing_by
  all_goals simp_wf
  all_goals (have h1 : (List.dropWhile isWordChar rest).length ≤ rest.length :=
    length_dropWhile_le_self isWordChar rest)
  all_goals omega

/-- Dot-separated segments of a normalized path. -/
def splitOnDotChars (l : List Char) : List (List Char) :=
  splitOnChar '.' l

/-- Canonical array-index reading of a path segment: digits only, without a
leading zero (except the single digit zero), as JavaScript array indexing by
a string key requires. -/
def canonIndex (seg : List Char) : Option Nat :=
  if seg ≠ [] ∧ seg.all Char.isDigit ∧ (seg = ['0'] ∨ seg.head? ≠ some '0') then
    some (digitsToNat seg)
  else none

/-- Property access current[segment] on a JSON value, for the data-bearing
cases the extractor can reach: object fields by name, array elements by
canonical index plus the length property, string characters by index plus
length.  Inherited function-valued properties are not data and are modelled
as absent. -/
def jsonIndex (v : Json) (seg : List Char) : Option Json :=
  match v with
  | .obj fields => (fields.find? (fun kv => kv.1 == String.mk seg)).map (fun kv => kv.2)
  | .arr xs =>
      if seg = "length".data then some (.num xs.length)
      else
        match canonIndex seg with
        | some i => xs[i]?
        | none => none
  | .str s =>
      if seg = "length".data then some (.num s.length)
      else
        match canonIndex seg with
        | some i => (s.data[i]?).map (fun c => Json.str (String.mk [c]))
        | none => none
  | _ => none

/-- Strip the optional leading dollar of a path (startsWith plus substring). -/
def stripDollar (l : List Char) : List Char :=
  match l with
  | [] => []
  | c :: rest => if c = '$' then rest else c :: rest

/-- Strip one leading dot left over by bracket replacement at the path head. -/
def stripLeadDot (l : List Char) : List Char :=
  match l with
  | [] => []
  | c :: rest => if c = '.' then rest else c :: rest

/-- Segments of a path: strip a leading dollar, replace bracket groups with
dot segments, strip one leading dot, split on dots. -/
def pathSegments (chars : List Char) : List (List Char) :=
  splitOnDotChars (stripLeadDot (replaceBrackets (stripDollar chars)))

/-- Walk the document along the segments, stopping with undefined whenever
the current value is null or undefined. -/
def walkPath (json : Json) (segments : List (List Char)) : Option Json :=
  segments.foldl
    (fun cur seg =>
      match cur with
      | none => none
      | some Json.null => none
      | some v => jsonIndex v seg)
    (some json)

/-- Character-level core of extractJsonPath. -/
def extractJsonPathChars (json : Json) (chars : List Char) : Option Json :=
  walkPath json (pathSegments chars)

/-- Model of CheckEvaluator.extractJsonPath. -/
def extractJsonPath (json : Json) (path : String) : Option Json :=
  extractJsonPathChars json path.data

/-- Abstract interface to the RegExp builtin: compiling a pattern either
fails with a SyntaxError message or yields a test function on strings.  The
claims depend only on success or failure of compilation, never on a specific
pattern's matching semantics, so the engine is a parameter of evaluation. -/
structure RegexEngine where
  compile : String → Except String (String → Bool)

/-- Comparison operators of the check model. -/
inductive Op where
  | equals
  | not_equals
  | contains
  | not_contains
  | matches
  | not_matches
  | greater_than
  | less_than
  | exists_
  | not_exists

/-- Operator subset legal on status-code checks. -/
inductive StatusOp where
  | equals
  | not_equals
  | matches
  | not_matches

/-- Operator subset legal on response-time checks. -/
inductive TimeOp where
  | less_than
  | greater_than

/-- Array-element selection policy of a JSON-path check. -/
inductive ElementSel where
  | first
  | last
  | any
  | all
  | idx (n : Int)

/-- Status-code check. -/
structure StatusCodeCheck where
  operator : StatusOp
  value : String

/-- Header check. -/
structure HeaderCheck where
  name : String
  operator : Op
  value : Option String := none

/-- Body check. -/
structure BodyCheck where
  operator : Op
  value : Option String := none

/-- JSON-path check (element defaults to first when absent). -/
structure JsonPathCheck where
  path : String
  operator : Op
  value : Option String := none
  element : Option ElementSel := none

/-- Response-time check. -/
structure ResponseTimeCheck where
  operator : TimeOp
  value : Int

/-- The tagged union of checks. -/
inductive Check where
  | status_code (c : StatusCodeCheck)
  | header (c : HeaderCheck)
  | body (c : BodyCheck)
  | jsonpath (c : JsonPathCheck)
  | response_time (c : ResponseTimeCheck)

/-- Response tuple handed to the evaluator by the transport. -/
structure ResponseData where
  statusCode : Int
  headers : List (String × String)
  body : String
  responseTime : Int

/-- One structured result per evaluated check. -/
structure IndividualCheckResult where
  type : String
  description : String
  passed : Bool
  error : Option String := none
  actualValue : Option Json := none
  expectedValue : Option Json := none

/-- Printable operator name. -/
def opString : Op → String
  | .equals => "equals"
  | .not_equals => "not_equals"
  | .contains => "contains"
  | .not_contains => "not_contains"
  | .matches => "matches"
  | .not_matches => "not_matches"
  | .greater_than => "greater_than"
  | .less_than => "less_than"
  | .exists_ => "exists"
  | .not_exists => "not_exists"

/-- Printable status-operator name. -/
def statusOpString : StatusOp → String
  | .equals => "equals"
  | .not_equals => "not_equals"
  | .matches => "matches"
  | .not_matches => "not_matches"

/-- Printable time-operator name. -/
def timeOpString : TimeOp → String
  | .less_than => "less_than"
  | .greater_than => "greater_than"

/-- Printable element selector. -/
def elementString : ElementSel → String
  | .first => "first"
  | .last => "last"
  | .any => "any"
  | .all => "all"
  | .idx n => toString n

/-- The source stores a thrown message in a local initialized to the empty
string and reports it as error only when truthy, so an empty message reports
as the absent field. -/
def errOpt (e : String) : Option String :=
  if e = "" then none else some e

/-- Passed flag of a try block outcome: a throw leaves it false. -/
def exceptPassed (r : Except String Bool) : Bool :=
  match r with
  | .ok b => b
  | .error _ => false

/-- Error field of a try block outcome. -/
def exceptErr (r : Except String Bool) : Option String :=
  match r with
  | .ok _ => none
  | .error e => errOpt e

/-- Model of CheckEvaluator.compareValues: the shared value comparator over a
dynamic actual value (none plays undefined), an operator, and an optional
expected string.  RegExp compilation failure in matches and not_matches
escapes as a thrown error (there is no try inside compareValues). -/
def compareValues (re : RegexEngine) (actual : Option Json) (operator : Op)
    (expected : Option String) : Except String Bool :=
  match operator with
  | .exists_ =>
      .ok (match actual with
        | none => false
        | some Json.null => false
        | some _ => true)
  | .not_exists =>
      .ok (match actual with
        | none => true
        | some Json.null => true
        | some _ => false)
  | .equals =>
      .ok (match expected with
        | some e => jsToString actual == e
        | none => false)
  | .not_equals =>
      .ok (match expected with
        | some e => !(jsToString actual == e)
        | none => true)
  | .contains => .ok (jsIncludes (jsToString actual) (expected.getD ""))
  | .not_contains => .ok (!jsIncludes (jsToString actual) (expected.getD ""))
  | .matches => (re.compile (expected.getD "")).map (fun t => t (jsToString actual))
  | .not_matches => (re.compile (expected.getD "")).map (fun t => !t (jsToString actual))
  | .greater_than =>
      .ok (match jsToNumber actual, jsToNumber (expected.map Json.str) with
        | some a, some b => decide (a > b)
        | _, _ => false)
  | .less_than =>
      .ok (match jsToNumber actual, jsToNumber (expected.map Json.str) with
        | some a, some b => decide (a < b)
        | _, _ => false)

/-- Model of CheckEvaluator.evaluateStatusCodeCheck.  For equals and
not_equals the value splits on the pipe, each trimmed segment parses with
parseInt (an unparsable segment becoming NaN, which never equals the actual
numeric status code), and membership decides the verdict; matches and
not_matches compile the value as a regex over the decimal status string. -/
def evaluateStatusCodeCheck (re : RegexEngine) (check : StatusCodeCheck)
    (response : ResponseData) : IndividualCheckResult :=
  let statusCode := response.statusCode
  let codes := (splitOnChar '|' check.value.data).map (fun code => jsParseInt (jsTrim (String.mk code)))
  let r : Except String Bool :=
    match check.operator with
    | .equals => .ok (codes.contains (some statusCode))
    | .not_equals => .ok (!codes.contains (some statusCode))
    | .matches => (re.compile check.value).map (fun t => t (toString statusCode))
    | .not_matches => (re.compile check.value).map (fun t => !t (toString statusCode))
  { type := "status_code"
    description := "Status code " ++ statusOpString check.operator ++ " " ++ check.value
    passed := exceptPassed r
    error := exceptErr r
    actualValue := some (.num statusCode)
    expectedValue := some (.str check.value) }

/-- First response header whose name matches case-insensitively. -/
def findHeader (headers : List (String × String)) (name : String) : Option String :=
  (headers.find? (fun kv => jsToLower kv.1 == jsToLower name)).map (fun kv => kv.2)

/-- Model of CheckEvaluator.evaluateHeaderCheck.  The switch is inlined in
the source rather than delegating to compareValues; operators outside the
eight listed cases (greater_than, less_than) fall through with the passed
flag still false and no error. -/
def evaluateHeaderCheck (re : RegexEngine) (check : HeaderCheck)
    (response : ResponseData) : IndividualCheckResult :=
  let headerValue := findHeader response.headers check.name
  let r : Except String Bool :=
    match check.operator with
    | .exists_ => .ok headerValue.isSome
    | .not_exists => .ok headerValue.isNone
    | .equals => .ok (headerValue == check.value)
    | .not_equals => .ok (!(headerValue == check.value))
    | .contains =>
        .ok (match headerValue with
          | some v => jsIncludes v (check.value.getD "")
          | none => false)
    | .not_contains =>
        .ok (match headerValue with
          | some v => !jsIncludes v (check.value.getD "")
          | none => true)
    | .matches =>
        (re.compile (check.value.getD "")).map (fun t =>
          match headerValue with
          | some v => t v
          | none => false)
    | .not_matches =>
        (re.compile (check.value.getD "")).map (fun t =>
          match headerValue with
          | some v => !t v
          | none => true)
    | _ => .ok false
  { type := "header"
    description := "Header " ++ check.name ++ " " ++ opString check.operator ++ " "
      ++ check.value.getD ""
    passed := exceptPassed r
    error := exceptErr r
    actualValue := headerValue.map Json.str
    expectedValue := check.value.map Json.str }

/-- Substring of the first n characters, as substring(0, n) produces. -/
def jsSubstringTo (s : String) (n : Nat) : String :=
  String.mk (s.data.take n)

/-- Model of CheckEvaluator.evaluateBodyCheck.  The verdict is computed from
the full response body; only the diagnostic actualValue is truncated to 100
characters with an ellipsis marker.  Operators outside the eight listed
cases fall through with passed still false and no error. -/
def evaluateBodyCheck (re : RegexEngine) (check : BodyCheck)
    (response : ResponseData) : IndividualCheckResult :=
  let body := response.body
  let r : Except String Bool :=
    match check.operator with
    | .exists_ => .ok (decide (0 < body.length))
    | .not_exists => .ok (decide (body.length = 0))
    | .equals => .ok (some body == check.value)
    | .not_equals => .ok (!(some body == check.value))
    | .contains => .ok (jsIncludes body (check.value.getD ""))
    | .not_contains => .ok (!jsIncludes body (check.value.getD ""))
    | .matches => (re.compile (check.value.getD "")).map (fun t => t body)
    | .not_matches => (re.compile (check.value.getD "")).map (fun t => !t body)
    | _ => .ok false
  { type := "body"
    description := "Body " ++ opString check.operator ++ " " ++ check.value.getD ""
    passed := exceptPassed r
    error := exceptErr r
    actualValue := some (.str (if 100 < body.length then jsSubstringTo body 100 ++ "..." else body))
    expectedValue := check.value.map Json.str }

/-- An object-typed value in the JavaScript sense: null, arrays, objects. -/
def isObjectLike : Json → Bool
  | .null => true
  | .arr _ => true
  | .obj _ => true
  | _ => false

/-- An object-typed value other than null, as the contains branch tests. -/
def isObjectLikeNotNull : Json → Bool
  | .arr _ => true
  | .obj _ => true
  | _ => false

/-- Array indexing with an integer that may be out of range on either side. -/
def arrGet (xs : List Json) (n : Int) : Option Json :=
  if 0 ≤ n then xs[n.toNat]? else none

/-- Final result record of a JSON-path check on the path that did not take
the any/all early return: a value of object type (null included) renders
through JSON.stringify in the diagnostic actualValue. -/
def jsonPathFinal (check : JsonPathCheck) (err : Option String) (passed : Bool)
    (av : Option Json) : IndividualCheckResult :=
  { type := "jsonpath"
    description := "JSON path " ++ check.path ++ " " ++ opString check.operator ++ " "
      ++ check.value.getD ""
    passed := passed
    error := err
    actualValue :=
      match av with
      | some v => if isObjectLike v then some (.str (Json.stringify v)) else some v
      | none => none
    expectedValue := check.value.map Json.str }

/-- Early-return result record of the any/all array branch: the reported
actualValue is the whole array, JSON-rendered, and the description carries
the element selector. -/
def jsonPathAnyAll (check : JsonPathCheck) (element : ElementSel) (passed : Bool)
    (xs : List Json) : IndividualCheckResult :=
  { type := "jsonpath"
    description := "JSON path " ++ check.path ++ " " ++ elementString element ++ " "
      ++ opString check.operator ++ " " ++ check.value.getD ""
    passed := passed
    error := none
    actualValue := some (.str (Json.stringify (Json.arr xs)))
    expectedValue := check.value.map Json.str }

/-- Single-value tail of the JSON-path evaluation: optional stringification
of object values for the containment operators, then the shared comparator,
whose thrown regex error is caught with the passed flag false. -/
def jsonPathSingle (re : RegexEngine) (check : JsonPathCheck)
    (av0 : Option Json) : IndividualCheckResult :=
  let av :=
    match check.operator with
    | .contains =>
        (match av0 with
          | some v => if isObjectLikeNotNull v then some (Json.str (Json.stringify v)) else av0
          | none => av0)
    | .not_contains =>
        (match av0 with
          | some v => if isObjectLikeNotNull v then some (Json.str (Json.stringify v)) else av0
          | none => av0)
    | _ => av0
  match compareValues re av check.operator check.value with
  | .ok b => jsonPathFinal check none b av
  | .error e => jsonPathFinal check (errOpt e) false av

/-- Model of CheckEvaluator.evaluateJsonPathCheck.  The body parses as JSON
(failure caught: the check fails with the error recorded while the local
actual value still holds its null initializer); the extractor runs on the
path; an array result with element any or all maps the comparator over every
element and takes the disjunction or conjunction, any other element selector
picks one element (out of range yielding undefined) before the single-value
tail; non-array results ignore the element selector. -/
def evaluateJsonPathCheck (re : RegexEngine) (check : JsonPathCheck)
    (response : ResponseData) : IndividualCheckResult :=
  let element := check.element.getD .first
  match Json.parse response.body with
  | .error e => jsonPathFinal check (errOpt e) false (some Json.null)
  | .ok jsonBody =>
      let extractedValue := extractJsonPath jsonBody check.path
      match extractedValue with
      | some (Json.arr xs) =>
          match element with
          | .any =>
              (match xs.mapM (fun item => compareValues re (some item) check.operator check.value) with
                | .error e => jsonPathFinal check (errOpt e) false (some Json.null)
                | .ok results => jsonPathAnyAll check .any (results.any id) xs)
          | .all =>
              (match xs.mapM (fun item => compareValues re (some item) check.operator check.value) with
                | .error e => jsonPathFinal check (errOpt e) false (some Json.null)
                | .ok results => jsonPathAnyAll check .all (results.all id) xs)
          | .idx n => jsonPathSingle re check (arrGet xs n)
          | .first => jsonPathSingle re check (arrGet xs 0)
          | .last => jsonPathSingle re check (arrGet xs ((xs.length : Int) - 1))
      | other => jsonPathSingle re check other

/-- Model of CheckEvaluator.evaluateResponseTimeCheck. -/
def evaluateResponseTimeCheck (check : ResponseTimeCheck)
    (response : ResponseData) : IndividualCheckResult :=
  let passed :=
    match check.operator with
    | .less_than => decide (response.responseTime < check.value)
    | .greater_than => decide (check.value < response.responseTime)
  { type := "response_time"
    description := "Response time " ++ timeOpString check.operator ++ " "
      ++ toString check.value ++ "ms"
    passed := passed
    actualValue := some (.num response.responseTime)
    expectedValue := some (.num check.value) }

/-- Model of CheckEvaluator.evaluateCheck: dispatch on the check tag. -/
def evaluateCheck (re : RegexEngine) (check : Check)
    (response : ResponseData) : IndividualCheckResult :=
  match check with
  | .status_code c => evaluateStatusCodeCheck re c response
  | .header c => evaluateHeaderCheck re c response
  | .body c => evaluateBodyCheck re c response
  | .jsonpath c => evaluateJsonPathCheck re c response
  | .response_time c => evaluateResponseTimeCheck c response

/-- Model of CheckEvaluator.evaluateChecks: one result per check, in order,
each independent of its siblings. -/
def evaluateChecks (re : RegexEngine) (checks : List Check)
    (response : ResponseData) : List IndividualCheckResult :=
  checks.map (fun check => evaluateCheck re check response)

/-- Configuration fields of one probe that feed the pure post-transport part
of StatusChecker.checkUrl (transport-only fields such as method, request
headers, request body and timeout are consumed by the HTTP collaborator and
do not reach check evaluation). -/
structure UrlConfig where
  url : String := ""
  name : Option String := none
  successCodes : Option (List Int) := none
  checks : Option (List Check) := none

/-- Probe result fields produced by the post-transport part of checkUrl
(the timestamp, being wall-clock state, is not modelled). -/
structure CheckResult where
  url : String
  name : Option String
  success : Bool
  statusCode : Option Int := none
  body : Option String := none
  responseTime : Int := 0
  error : Option String := none
  checkResults : List IndividualCheckResult := []

/-- The synthesized default status-code check: operator equals over the
probe's (or global) success codes joined by the pipe, defaulting to 200. -/
def defaultStatusCheck (cfg : UrlConfig) (globalSuccessCodes : Option (List Int)) : Check :=
  Check.status_code
    { operator := .equals
      value := String.intercalate "|"
        (((cfg.successCodes.getD (globalSuccessCodes.getD [200]))).map (fun n => toString n)) }

/-- Effective check list of a probe: explicit checks are used only when the
supplied list is non-empty; otherwise (absent or empty) the single default
status-code check is synthesized. -/
def effectiveChecks (cfg : UrlConfig) (globalSuccessCodes : Option (List Int)) : List Check :=
  match cfg.checks with
  | some cs => if 0 < cs.length then cs else [defaultStatusCheck cfg globalSuccessCodes]
  | none => [defaultStatusCheck cfg globalSuccessCodes]

/-- Diagnostic line of one failed check in the aggregate error message. -/
def failedCheckLine (c : IndividualCheckResult) : String :=
  c.description ++ " - Expected: " ++ jsToString c.expectedValue ++ ", Actual: "
    ++ jsToString c.actualValue

/-- Model of the post-transport part of StatusChecker.checkUrl: the stored
body is truncated to 1024 characters with an ellipsis marker, while the
evaluator receives the untruncated body; the overall success flag is the
conjunction of the passed flags of all individual results, and the aggregate
error joins the diagnostic lines of every failed check. -/
def checkUrlModel (re : RegexEngine) (cfg : UrlConfig)
    (globalSuccessCodes : Option (List Int)) (response : ResponseData) : CheckResult :=
  let checks := effectiveChecks cfg globalSuccessCodes
  let checkResults := evaluateChecks re checks response
  let success := checkResults.all (fun r => r.passed)
  { url := cfg.url
    name := cfg.name
    success := success
    statusCode := some response.statusCode
    body := some (if 1024 < response.body.length
      then jsSubstringTo response.body 1024 ++ "..."
      else response.body)
    responseTime := response.responseTime
    error := if success then none
      else some (String.intercalate "; " ((checkResults.filter (fun r => !r.passed)).map failedCheckLine))
    checkResults := checkResults }

/-- A concrete regex engine used to instantiate witnesses: a lone opening
parenthesis fails to compile the way RegExp raises SyntaxError, and any
other pattern tests by literal substring containment. -/
def witnessEngine : RegexEngine :=
  { compile := fun p =>
      if p = "(" then .error "Invalid regular expression: missing closing parenthesis"
      else .ok (fun s => jsIncludes s p) }

/-- Concrete document used by witnesses: an object holding a two-string
tag array. -/
def tagsDoc : Json :=
  Json.obj [("tags", Json.arr [Json.str "developer", Json.str "typescript"])]

/-- Concrete response body whose JSON parse yields tagsDoc. -/
def tagsBody : String := "\x7b\"tags\":[\"developer\",\"typescript\"]\x7d"

/-- A 2000-character body whose only occurrence of the letter x sits beyond
both truncation boundaries. -/
def bodyLong : String := String.mk (List.replicate 1999 'a' ++ ['x'])

/-- The 1024-character storage truncation of bodyLong. -/
def bodyLongTruncStored : String := String.mk (List.replicate 1024 'a') ++ "..."

/-- The 100-character diagnostic truncation of bodyLong. -/
def bodyLongTruncDiag : String := String.mk (List.replicate 100 'a') ++ "..."

/-- Membership of a present value in a list of NaN parses is impossible. -/
theorem contains_none_eq_false (sc : Int) :
    ∀ l : List (Option Int), (∀ x ∈ l, x = none) → l.contains (some sc) = false := by
  intro l hl
  induction l with
  | nil => rfl
  | cons a t ih =>
      have ha : a = none := hl a (List.mem_cons_self a t)
      subst ha
      have ht : ∀ x ∈ t, x = none := fun x hx => hl x (List.mem_cons_of_mem _ hx)
      simp only [List.contains_cons, ih ht, Bool.or_false]
      rfl

/-- C2: for every HTTP response, a status-code check with operator equals
and value 200|301|302 passes iff the numeric status code is one of 200, 301
or 302 (failing for 404); in general equals and not_equals split the value
on the pipe, parse each trimmed segment with parseInt, and test membership
of the actual status code among the parses. -/
theorem claim2_status_equals_membership (re : RegexEngine) (resp : ResponseData) (v : String) :
    ((evaluateStatusCodeCheck re ⟨.equals, v⟩ resp).passed
      = ((splitOnChar '|' v.data).map
          (fun c => jsParseInt (jsTrim (String.mk c)))).contains (some resp.statusCode))
    ∧ ((evaluateStatusCodeCheck re ⟨.not_equals, v⟩ resp).passed
      = !((splitOnChar '|' v.data).map
          (fun c => jsParseInt (jsTrim (String.mk c)))).contains (some resp.statusCode))
    ∧ ((evaluateStatusCodeCheck re ⟨.equals, "200|301|302"⟩ resp).passed = true
      ↔ (resp.statusCode = 200 ∨ resp.statusCode = 301 ∨ resp.statusCode = 302))
    ∧ ((evaluateStatusCodeCheck re ⟨.equals, "200|301|302"⟩
        { statusCode := 404, headers := [], body := "", responseTime := 0 }).passed = false) := by
  refine ⟨rfl, rfl, ?_, rfl⟩
  have hpassed : (evaluateStatusCodeCheck re ⟨.equals, "200|301|302"⟩ resp).passed
      = ([some 200, some 301, some 302] : List (Option Int)).contains
          (some resp.statusCode) := rfl
  rw [hpassed]
  simp [List.contains_cons]

/-- C4: in the shared value comparator, greater_than and less_than parse both
sides as numbers, and whenever either side is non-numeric the comparison
involves NaN and returns false, with no error raised. -/
theorem claim4_nan_comparisons_fail (re : RegexEngine) (actual : Option Json)
    (expected : Option String)
    (h : jsToNumber actual = none ∨ jsToNumber (expected.map Json.str) = none) :
    compareValues re actual .greater_than expected = .ok false
    ∧ compareValues re actual .less_than expected = .ok false := by
  unfold compareValues
  rcases h with h | h <;> rw [h]
  · cases jsToNumber (expected.map Json.str) <;> exact ⟨rfl, rfl⟩
  · cases jsToNumber actual <;> exact ⟨rfl, rfl⟩

/-- Witness for C4 at the non-numeric actual value abc against expected 5. -/
theorem claim4_witness :
    compareValues witnessEngine (some (Json.str "abc")) .greater_than (some "5") = .ok false
    ∧ compareValues witnessEngine (some (Json.str "abc")) .less_than (some "5") = .ok false :=
  claim4_nan_comparisons_fail witnessEngine (some (Json.str "abc")) (some "5")
    (Or.inl rfl)

/-- C10: against a response with no case-insensitive match for the header
name, a header check with operator equals and no expected value passes (both
sides are absent), while the same check with not_equals fails. -/
theorem claim10_absent_header_equals (re : RegexEngine) (resp : ResponseData) (name : String)
    (h : ∀ kv ∈ resp.headers, jsToLower kv.1 ≠ jsToLower name) :
    (evaluateHeaderCheck re ⟨name, .equals, none⟩ resp).passed = true
    ∧ (evaluateHeaderCheck re ⟨name, .not_equals, none⟩ resp).passed = false := by
  have hf : findHeader resp.headers name = none := by
    unfold findHeader
    rw [List.find?_eq_none.mpr]
    · rfl
    · intro kv hkv
      simp only [beq_iff_eq]
      exact h kv hkv
  constructor
  · show exceptPassed (.ok (findHeader resp.headers name == none)) = true
    rw [hf]
    rfl
  · show exceptPassed (.ok (!(findHeader resp.headers name == none))) = false
    rw [hf]
    rfl

/-- Witness for C10 on a response carrying only an unrelated header. -/
theorem claim10_witness :
    (evaluateHeaderCheck witnessEngine ⟨"x-missing", .equals, none⟩
        ⟨200, [("content-type", "text/html")], "", 0⟩).passed = true
    ∧ (evaluateHeaderCheck witnessEngine ⟨"x-missing", .not_equals, none⟩
        ⟨200, [("content-type", "text/html")], "", 0⟩).passed = false :=
  claim10_absent_header_equals witnessEngine ⟨200, [("content-type", "text/html")], "", 0⟩
    "x-missing" (by decide)

/-- C1 counterexample: a probe supplying an explicitly empty check list is
not evaluated vacuously; the orchestrator synthesizes the default 200
status-code check, so against a 404 response the probe fails rather than
succeeding vacuously as the claim states. -/
theorem claim1_counterexample :
    (checkUrlModel witnessEngine { url := "https://example.com", checks := some ([] : List Check) }
        none ⟨404, [], "", 5⟩).success = false
    ∧ effectiveChecks { url := "https://example.com", checks := some ([] : List Check) } none
      = [Check.status_code { operator := .equals, value := "200" }] :=
  ⟨rfl, rfl⟩

/-- C1 (amended): explicit checks are used verbatim only when the supplied
list is non-empty; an absent or empty list synthesizes the single default
status-code check with operator equals over the pipe-joined success codes
(probe list, else global list, else 200); the probe's overall success flag
is the conjunction of the passed flags of all individual check results. -/
theorem claim1_effective_checks (re : RegexEngine) (cfg : UrlConfig)
    (g : Option (List Int)) (resp : ResponseData) :
    (∀ cs, cfg.checks = some cs → cs ≠ [] → effectiveChecks cfg g = cs)
    ∧ (cfg.checks = none ∨ cfg.checks = some [] →
        effectiveChecks cfg g
          = [Check.status_code
              ⟨StatusOp.equals,
                String.intercalate "|"
                  ((cfg.successCodes.getD (g.getD [200])).map (fun n => toString n))⟩])
    ∧ (checkUrlModel re cfg g resp).checkResults = evaluateChecks re (effectiveChecks cfg g) resp
    ∧ (checkUrlModel re cfg g resp).success
      = ((evaluateChecks re (effectiveChecks cfg g) resp).all (fun r => r.passed)) := by
  refine ⟨?_, ?_, rfl, rfl⟩
  · intro cs hcs hne
    unfold effectiveChecks
    rw [hcs]
    cases cs with
    | nil => exact absurd rfl hne
    | cons a t => simp
  · rintro (h | h) <;> unfold effectiveChecks <;> rw [h] <;> rfl

/-- Witness for C1 on a probe with one explicit check and a probe with an
empty check list. -/
theorem claim1_witness :
    effectiveChecks { url := "u", checks := some [Check.response_time ⟨.less_than, 2000⟩] } none
      = [Check.response_time ⟨.less_than, 2000⟩]
    ∧ effectiveChecks { url := "u", checks := some ([] : List Check) } none
      = [Check.status_code
          ⟨StatusOp.equals,
            String.intercalate "|" (([200] : List Int).map (fun n => toString n))⟩] :=
  ⟨(claim1_effective_checks witnessEngine
      { url := "u", checks := some [Check.response_time ⟨.less_than, 2000⟩] } none
      ⟨200, [], "", 0⟩).1 _ rfl (by simp),
   (claim1_effective_checks witnessEngine { url := "u", checks := some ([] : List Check) } none
      ⟨200, [], "", 0⟩).2.1 (Or.inr rfl)⟩

/-- C6 counterexample: a status-code check whose value is not a number is
not reported as failed with a populated error; parseInt yields NaN without
throwing, so the equals form fails silently with no error field, and the
not_equals form even passes. -/
theorem claim6_counterexample :
    (evaluateStatusCodeCheck witnessEngine ⟨.not_equals, "abc"⟩ ⟨200, [], "", 0⟩).passed = true
    ∧ (evaluateStatusCodeCheck witnessEngine ⟨.not_equals, "abc"⟩ ⟨200, [], "", 0⟩).error = none
    ∧ (evaluateStatusCodeCheck witnessEngine ⟨.equals, "abc"⟩ ⟨200, [], "", 0⟩).passed = false
    ∧ (evaluateStatusCodeCheck witnessEngine ⟨.equals, "abc"⟩ ⟨200, [], "", 0⟩).error = none :=
  ⟨rfl, rfl, rfl, rfl⟩

/-- C6 (amended): malformed regexes and unparsable JSON bodies are caught
per-check, failing that one check with a populated error field while sibling
checks evaluate independently; an invalid numeric literal in a status-code
equals or not_equals value raises no error at all — each unparsable segment
parses as NaN, which never matches the actual status code, so equals fails
silently and not_equals passes. -/
theorem claim6_check_errors_contained :
    (∀ (re : RegexEngine) (resp : ResponseData) (v e : String), e ≠ "" →
        re.compile v = .error e →
        (evaluateStatusCodeCheck re ⟨.matches, v⟩ resp).passed = false
        ∧ (evaluateStatusCodeCheck re ⟨.matches, v⟩ resp).error = some e)
    ∧ (∀ (re : RegexEngine) (resp : ResponseData) (c : JsonPathCheck) (e : String), e ≠ "" →
        Json.parse resp.body = .error e →
        (evaluateJsonPathCheck re c resp).passed = false
        ∧ (evaluateJsonPathCheck re c resp).error = some e)
    ∧ (∀ (re : RegexEngine) (checks : List Check) (resp : ResponseData),
        evaluateChecks re checks resp = checks.map (fun c => evaluateCheck re c resp))
    ∧ (∀ (re : RegexEngine) (resp : ResponseData) (v : String),
        (∀ seg ∈ splitOnChar '|' v.data, jsParseInt (jsTrim (String.mk seg)) = none) →
        (evaluateStatusCodeCheck re ⟨.equals, v⟩ resp).passed = false
        ∧ (evaluateStatusCodeCheck re ⟨.equals, v⟩ resp).error = none) := by
  refine ⟨?_, ?_, fun _ _ _ => rfl, ?_⟩
  · intro re resp v e hne hc
    constructor
    · show exceptPassed ((re.compile v).map (fun t => t (toString resp.statusCode))) = false
      rw [hc]
      rfl
    · show exceptErr ((re.compile v).map (fun t => t (toString resp.statusCode))) = some e
      rw [hc]
      simp [Except.map, exceptErr, errOpt, hne]
  · intro re resp c e hne hp
    unfold evaluateJsonPathCheck
    rw [hp]
    exact ⟨rfl, by simp [jsonPathFinal, errOpt, hne]⟩
  · intro re resp v h
    have hcont : ((splitOnChar '|' v.data).map
        (fun code => jsParseInt (jsTrim (String.mk code)))).contains (some resp.statusCode)
        = false := by
      refine contains_none_eq_false resp.statusCode _ ?_
      intro x hx
      obtain ⟨seg, hseg, hmap⟩ := List.mem_map.mp hx
      rw [← hmap]
      exact h seg hseg
    constructor
    · show exceptPassed (.ok (((splitOnChar '|' v.data).map
        (fun code => jsParseInt (jsTrim (String.mk code)))).contains (some resp.statusCode)))
        = false
      rw [hcont]
      rfl
    · rfl

/-- Witness for C6: a failing regex compile, a failing JSON parse, a
two-check batch mapping independently, and an all-NaN status value. -/
theorem claim6_witness :
    ((evaluateStatusCodeCheck witnessEngine ⟨.matches, "("⟩ ⟨200, [], "", 0⟩).passed = false
      ∧ (evaluateStatusCodeCheck witnessEngine ⟨.matches, "("⟩ ⟨200, [], "", 0⟩).error
        = some "Invalid regular expression: missing closing parenthesis")
    ∧ ((evaluateJsonPathCheck witnessEngine ⟨"a", .exists_, none, none⟩
          ⟨200, [], "nope", 0⟩).passed = false
      ∧ (evaluateJsonPathCheck witnessEngine ⟨"a", .exists_, none, none⟩
          ⟨200, [], "nope", 0⟩).error = some "Unexpected token in JSON")
    ∧ (evaluateChecks witnessEngine [Check.status_code ⟨.equals, "200"⟩,
          Check.body ⟨.exists_, none⟩] ⟨200, [], "b", 0⟩
        = [Check.status_code ⟨.equals, "200"⟩, Check.body ⟨.exists_, none⟩].map
            (fun c => evaluateCheck witnessEngine c ⟨200, [], "b", 0⟩))
    ∧ ((evaluateStatusCodeCheck witnessEngine ⟨.equals, "abc|x9"⟩ ⟨200, [], "", 0⟩).passed = false
      ∧ (evaluateStatusCodeCheck witnessEngine ⟨.equals, "abc|x9"⟩ ⟨200, [], "", 0⟩).error = none) :=
  ⟨claim6_check_errors_contained.1 witnessEngine ⟨200, [], "", 0⟩ "("
      "Invalid regular expression: missing closing parenthesis" (by decide) rfl,
   claim6_check_errors_contained.2.1 witnessEngine ⟨200, [], "nope", 0⟩
      ⟨"a", .exists_, none, none⟩ "Unexpected token in JSON" (by decide) rfl,
   claim6_check_errors_contained.2.2.1 witnessEngine _ _,
   claim6_check_errors_contained.2.2.2 witnessEngine ⟨200, [], "", 0⟩ "abc|x9" (by decide)⟩

/-- C7 counterexample: on an unparsable body the JSON-path check does fail
with a populated error, but its reported actualValue is the string rendering
of the null placeholder (the five-character string null after stringify),
not null itself, because the null initializer takes the object-stringify
branch of the result construction. -/
theorem claim7_counterexample :
    (evaluateJsonPathCheck witnessEngine ⟨"a", .equals, some "x", none⟩
        ⟨200, [], "not json", 0⟩).actualValue = some (Json.str "null")
    ∧ (evaluateJsonPathCheck witnessEngine ⟨"a", .equals, some "x", none⟩
        ⟨200, [], "not json", 0⟩).actualValue ≠ some Json.null
    ∧ (evaluateJsonPathCheck witnessEngine ⟨"a", .equals, some "x", none⟩
        ⟨200, [], "not json", 0⟩).passed = false
    ∧ (evaluateJsonPathCheck witnessEngine ⟨"a", .equals, some "x", none⟩
        ⟨200, [], "not json", 0⟩).error = some "Unexpected token in JSON" :=
  ⟨rfl, fun h => Option.noConfusion h (fun h2 => Json.noConfusion h2), rfl, rfl⟩

/-- C7 (amended): a JSON-path check over a body that fails to parse yields a
failed check whose error field carries the parse failure and whose reported
actualValue is the JSON rendering of null (the string null), the null
placeholder having passed through the object-stringify branch. -/
theorem claim7_jsonpath_parse_failure (re : RegexEngine) (check : JsonPathCheck)
    (resp : ResponseData) (e : String) (hne : e ≠ "")
    (hparse : Json.parse resp.body = .error e) :
    (evaluateJsonPathCheck re check resp).passed = false
    ∧ (evaluateJsonPathCheck re check resp).error = some e
    ∧ (evaluateJsonPathCheck re check resp).actualValue = some (Json.str "null") := by
  unfold evaluateJsonPathCheck
  rw [hparse]
  exact ⟨rfl, by simp [jsonPathFinal, errOpt, hne], rfl⟩

/-- Witness for C7 on a truncated object body. -/
theorem claim7_witness :
    (evaluateJsonPathCheck witnessEngine ⟨"slideshow.title", .exists_, none, none⟩
        ⟨200, [], "\x7boops", 0⟩).passed = false
    ∧ (evaluateJsonPathCheck witnessEngine ⟨"slideshow.title", .exists_, none, none⟩
        ⟨200, [], "\x7boops", 0⟩).error = some "Expected string key in JSON object"
    ∧ (evaluateJsonPathCheck witnessEngine ⟨"slideshow.title", .exists_, none, none⟩
        ⟨200, [], "\x7boops", 0⟩).actualValue = some (Json.str "null") :=
  claim7_jsonpath_parse_failure witnessEngine ⟨"slideshow.title", .exists_, none, none⟩
    ⟨200, [], "\x7boops", 0⟩ "Expected string key in JSON object" (by decide) rfl

/-- C3: when the extracted JSON-path value is an array and the element
selector is any or all, the comparator runs independently over every array
element, the check passes iff at least one (any) or every (all) element
satisfies it, and the reported actualValue is the JSON rendering of the
whole array. -/
theorem claim3_jsonpath_any_all (re : RegexEngine) (resp : ResponseData)
    (path : String) (op : Op) (val : Option String) (doc : Json) (xs : List Json)
    (results : List Bool)
    (hparse : Json.parse resp.body = .ok doc)
    (hext : extractJsonPath doc path = some (Json.arr xs))
    (hcmp : xs.mapM (fun item => compareValues re (some item) op val) = .ok results) :
    (evaluateJsonPathCheck re ⟨path, op, val, some .any⟩ resp).passed = results.any id
    ∧ (evaluateJsonPathCheck re ⟨path, op, val, some .all⟩ resp).passed = results.all id
    ∧ (evaluateJsonPathCheck re ⟨path, op, val, some .any⟩ resp).actualValue
      = some (Json.str (Json.stringify (Json.arr xs)))
    ∧ (evaluateJsonPathCheck re ⟨path, op, val, some .all⟩ resp).actualValue
      = some (Json.str (Json.stringify (Json.arr xs))) := by
  have hAny : evaluateJsonPathCheck re ⟨path, op, val, some .any⟩ resp
      = jsonPathAnyAll ⟨path, op, val, some .any⟩ .any (results.any id) xs := by
    unfold evaluateJsonPathCheck
    rw [hparse]
    show (match extractJsonPath doc path with
      | some (Json.arr xs) =>
          match xs.mapM (fun item => compareValues re (some item) op val) with
          | .error e => jsonPathFinal ⟨path, op, val, some .any⟩ (errOpt e) false (some Json.null)
          | .ok results => jsonPathAnyAll ⟨path, op, val, some .any⟩ .any (results.any id) xs
      | other => jsonPathSingle re ⟨path, op, val, some .any⟩ other) = _
    rw [hext]
    show (match xs.mapM (fun item => compareValues re (some item) op val) with
      | .error e => jsonPathFinal ⟨path, op, val, some .any⟩ (errOpt e) false (some Json.null)
      | .ok results => jsonPathAnyAll ⟨path, op, val, some .any⟩ .any (results.any id) xs) = _
    rw [hcmp]
  have hAll : evaluateJsonPathCheck re ⟨path, op, val, some .all⟩ resp
      = jsonPathAnyAll ⟨path, op, val, some .all⟩ .all (results.all id) xs := by
    unfold evaluateJsonPathCheck
    rw [hparse]
    show (match extractJsonPath doc path with
      | some (Json.arr xs) =>
          match xs.mapM (fun item => compareValues re (some item) op val) with
          | .error e => jsonPathFinal ⟨path, op, val, some .all⟩ (errOpt e) false (some Json.null)
          | .ok results => jsonPathAnyAll ⟨path, op, val, some .all⟩ .all (results.all id) xs
      | other => jsonPathSingle re ⟨path, op, val, some .all⟩ other) = _
    rw [hext]
    show (match xs.mapM (fun item => compareValues re (some item) op val) with
      | .error e => jsonPathFinal ⟨path, op, val, some .all⟩ (errOpt e) false (some Json.null)
      | .ok results => jsonPathAnyAll ⟨path, op, val, some .all⟩ .all (results.all id) xs) = _
    rw [hcmp]
  rw [hAny, hAll]
  exact ⟨rfl, rfl, rfl, rfl⟩

/-- Witness for C3 on the two-string tag array: with operator equals and
value typescript, element any passes and element all fails. -/
theorem claim3_witness :
    (evaluateJsonPathCheck witnessEngine ⟨"tags", .equals, some "typescript", some .any⟩
        ⟨200, [], tagsBody, 0⟩).passed = true
    ∧ (evaluateJsonPathCheck witnessEngine ⟨"tags", .equals, some "typescript", some .all⟩
        ⟨200, [], tagsBody, 0⟩).passed = false := by
  have hext : extractJsonPath tagsDoc "tags"
      = some (Json.arr [Json.str "developer", Json.str "typescript"]) := by
    simp +decide [extractJsonPath, extractJsonPathChars, pathSegments, walkPath, stripDollar,
      stripLeadDot, replaceBrackets, splitOnDotChars, splitOnChar, jsonIndex, tagsDoc, canonIndex]
  have H := claim3_jsonpath_any_all witnessEngine ⟨200, [], tagsBody, 0⟩ "tags" .equals
    (some "typescript") tagsDoc [Json.str "developer", Json.str "typescript"]
    [false, true] rfl hext rfl
  exact ⟨H.1.trans rfl, H.2.1.trans rfl⟩

/-- C5 counterexample: the header evaluator and the shared value comparator
disagree on greater_than: the header switch has no case for it and leaves
the passed flag false, while the comparator compares numerically and
returns true for the found value 5 against expected 3. -/
theorem claim5_counterexample :
    (evaluateHeaderCheck witnessEngine ⟨"x-count", .greater_than, some "3"⟩
        ⟨200, [("x-count", "5")], "", 0⟩).passed = false
    ∧ findHeader [("x-count", "5")] "x-count" = some "5"
    ∧ compareValues witnessEngine (some (Json.str "5")) .greater_than (some "3") = .ok true :=
  ⟨rfl, rfl, rfl⟩

/-- C5 (amended): for a header found case-insensitively, the header check
verdict and error agree with the shared value comparator applied to the
found value for the six string operators equals, not_equals, contains,
not_contains, matches and not_matches; the agreement does not extend to
greater_than and less_than (no case in the header switch, always failing)
nor to absent headers (where the comparator would coerce undefined to the
string undefined). -/
theorem claim5_header_comparator_agreement (re : RegexEngine) (resp : ResponseData)
    (check : HeaderCheck) (v : String)
    (hfound : findHeader resp.headers check.name = some v)
    (hop : check.operator = .equals ∨ check.operator = .not_equals
      ∨ check.operator = .contains ∨ check.operator = .not_contains
      ∨ check.operator = .matches ∨ check.operator = .not_matches) :
    (evaluateHeaderCheck re check resp).passed
      = exceptPassed (compareValues re (some (Json.str v)) check.operator check.value)
    ∧ (evaluateHeaderCheck re check resp).error
      = exceptErr (compareValues re (some (Json.str v)) check.operator check.value) := by
  obtain ⟨name, op, value⟩ := check
  simp only at hfound hop
  simp only [evaluateHeaderCheck, hfound]
  rcases hop with hop | hop | hop | hop | hop | hop <;> subst hop
  · cases value <;> exact ⟨rfl, rfl⟩
  · cases value <;> exact ⟨rfl, rfl⟩
  · cases value <;> exact ⟨rfl, rfl⟩
  · cases value <;> exact ⟨rfl, rfl⟩
  · cases hc : re.compile (value.getD "") <;> simp [compareValues, hc] <;> exact ⟨rfl, rfl⟩
  · cases hc : re.compile (value.getD "") <;> simp [compareValues, hc] <;> exact ⟨rfl, rfl⟩

/-- Witness for C5 on a found content-type header with the contains
operator. -/
theorem claim5_witness :
    (evaluateHeaderCheck witnessEngine ⟨"content-type", .contains, some "text"⟩
        ⟨200, [("Content-Type", "text/html")], "", 0⟩).passed
      = exceptPassed (compareValues witnessEngine (some (Json.str "text/html")) .contains
          (some "text")) :=
  (claim5_header_comparator_agreement witnessEngine ⟨200, [("Content-Type", "text/html")], "", 0⟩
    ⟨"content-type", .contains, some "text"⟩ "text/html" rfl
    (Or.inr (Or.inr (Or.inl rfl)))).1

/-- C9: a body check's verdict is a function of the full untruncated body
alone; concretely, on a 2000-character body whose only x sits past both
truncation boundaries, the contains check passes, the probe succeeds, the
stored body is the 1024-character truncation (which does not contain x, so
evaluating against it would flip the verdict), and the diagnostic
actualValue is the 100-character truncation, which also lacks the x. -/
theorem claim9_truncation_cosmetic :
    (∀ (re : RegexEngine) (c : BodyCheck) (r1 r2 : ResponseData), r1.body = r2.body →
        (evaluateBodyCheck re c r1).passed = (evaluateBodyCheck re c r2).passed)
    ∧ (evaluateBodyCheck witnessEngine ⟨.contains, some "x"⟩ ⟨200, [], bodyLong, 0⟩).passed = true
    ∧ (checkUrlModel witnessEngine { url := "u", checks := some [Check.body ⟨.contains, some "x"⟩] }
        none ⟨200, [], bodyLong, 0⟩).success = true
    ∧ (checkUrlModel witnessEngine { url := "u", checks := some [Check.body ⟨.contains, some "x"⟩] }
        none ⟨200, [], bodyLong, 0⟩).body = some bodyLongTruncStored
    ∧ (evaluateBodyCheck witnessEngine ⟨.contains, some "x"⟩
        ⟨200, [], bodyLongTruncStored, 0⟩).passed = false
    ∧ (evaluateBodyCheck witnessEngine ⟨.contains, some "x"⟩ ⟨200, [], bodyLong, 0⟩).actualValue
      = some (Json.str bodyLongTruncDiag)
    ∧ jsIncludes bodyLongTruncDiag "x" = false
    ∧ bodyLong.length = 2000 := by
  have hlen : bodyLong.length = 2000 := by
    show (List.replicate 1999 'a' ++ ['x']).length = 2000
    rw [List.length_append, List.length_replicate]
    rfl
  have hinc : jsIncludes bodyLong "x" = true := by
    unfold jsIncludes bodyLong
    rw [decide_eq_true_eq]
    exact ⟨List.replicate 1999 'a', [], by rw [List.append_nil]⟩
  have hmem : ∀ c ∈ bodyLongTruncStored.data, c = 'a' ∨ c = '.' := by
    intro c hc
    have h2 : c ∈ List.replicate 1024 'a' ++ ['.', '.', '.'] := hc
    rcases List.mem_append.mp h2 with h | h
    · exact Or.inl (List.eq_of_mem_replicate h)
    · simp only [List.mem_cons, List.not_mem_nil, or_false] at h
      rcases h with h | h | h <;> exact Or.inr h
  have hnotinc : jsIncludes bodyLongTruncStored "x" = false := by
    unfold jsIncludes
    rw [decide_eq_false_iff_not]
    intro hinf
    have hx : 'x' ∈ bodyLongTruncStored.data :=
      hinf.subset (List.mem_singleton.mpr rfl)
    rcases hmem 'x' hx with h | h <;> exact absurd h (by decide)
  have hmemD : ∀ c ∈ bodyLongTruncDiag.data, c = 'a' ∨ c = '.' := by
    intro c hc
    have h2 : c ∈ List.replicate 100 'a' ++ ['.', '.', '.'] := hc
    rcases List.mem_append.mp h2 with h | h
    · exact Or.inl (List.eq_of_mem_replicate h)
    · simp only [List.mem_cons, List.not_mem_nil, or_false] at h
      rcases h with h | h | h <;> exact Or.inr h
  have hnotincD : jsIncludes bodyLongTruncDiag "x" = false := by
    unfold jsIncludes
    rw [decide_eq_false_iff_not]
    intro hinf
    have hx : 'x' ∈ bodyLongTruncDiag.data :=
      hinf.subset (List.mem_singleton.mpr rfl)
    rcases hmemD 'x' hx with h | h <;> exact absurd h (by decide)
  have htake : ∀ n : Nat, n ≤ 1999 →
      (List.replicate 1999 'a' ++ ['x']).take n = List.replicate n 'a' := by
    intro n hn
    rw [List.take_append_of_le_length (by rw [List.length_replicate]; exact hn),
      List.take_replicate, Nat.min_eq_left hn]
  have htrunc : (if 1024 < bodyLong.length then jsSubstringTo bodyLong 1024 ++ "..." else bodyLong)
      = bodyLongTruncStored := by
    rw [hlen, if_pos (by norm_num)]
    show String.mk ((List.replicate 1999 'a' ++ ['x']).take 1024) ++ "..." = bodyLongTruncStored
    rw [htake 1024 (by norm_num)]
    rfl
  have hdiag : (if 100 < bodyLong.length then jsSubstringTo bodyLong 100 ++ "..." else bodyLong)
      = bodyLongTruncDiag := by
    rw [hlen, if_pos (by norm_num)]
    show String.mk ((List.replicate 1999 'a' ++ ['x']).take 100) ++ "..." = bodyLongTruncDiag
    rw [htake 100 (by norm_num)]
    rfl
  have genPassed : ∀ (re : RegexEngine) (v : Option String) (resp : ResponseData),
      (evaluateBodyCheck re ⟨.contains, v⟩ resp).passed = jsIncludes resp.body (v.getD "") :=
    fun _ _ _ => rfl
  have genSucc : ∀ (re : RegexEngine) (v : Option String) (resp : ResponseData),
      (checkUrlModel re { url := "u", checks := some [Check.body ⟨.contains, v⟩] }
        none resp).success = (jsIncludes resp.body (v.getD "") && true) :=
    fun _ _ _ => rfl
  have genBody : ∀ (re : RegexEngine) (v : Option String) (resp : ResponseData),
      (checkUrlModel re { url := "u", checks := some [Check.body ⟨.contains, v⟩] }
        none resp).body
      = some (if 1024 < resp.body.length then jsSubstringTo resp.body 1024 ++ "..." else resp.body) :=
    fun _ _ _ => rfl
  have genAV : ∀ (re : RegexEngine) (v : Option String) (resp : ResponseData),
      (evaluateBodyCheck re ⟨.contains, v⟩ resp).actualValue
      = some (Json.str (if 100 < resp.body.length then jsSubstringTo resp.body 100 ++ "..." else resp.body)) :=
    fun _ _ _ => rfl
  refine ⟨?_, ?_, ?_, ?_, ?_, ?_, hnotincD, hlen⟩
  · intro re c r1 r2 h
    cases r1
    cases r2
    simp only at h
    subst h
    rfl
  · exact (genPassed witnessEngine (some "x") ⟨200, [], bodyLong, 0⟩).trans hinc
  · refine (genSucc witnessEngine (some "x") ⟨200, [], bodyLong, 0⟩).trans ?_
    show (jsIncludes bodyLong "x" && true) = true
    rw [hinc]
    rfl
  · exact (genBody witnessEngine (some "x") ⟨200, [], bodyLong, 0⟩).trans
      (congrArg some htrunc)
  · exact (genPassed witnessEngine (some "x") ⟨200, [], bodyLongTruncStored, 0⟩).trans hnotinc
  · exact (genAV witnessEngine (some "x") ⟨200, [], bodyLong, 0⟩).trans
      (congrArg (fun s => some (Json.str s)) hdiag)

/-- Witness for C9: two responses differing outside the body get the same
body-check verdict. -/
theorem claim9_witness :
    (evaluateBodyCheck witnessEngine ⟨.contains, some "x"⟩ ⟨200, [], "abc", 0⟩).passed
      = (evaluateBodyCheck witnessEngine ⟨.contains, some "x"⟩ ⟨404, [("h", "v")], "abc", 7⟩).passed :=
  claim9_truncation_cosmetic.1 witnessEngine ⟨.contains, some "x"⟩ ⟨200, [], "abc", 0⟩
    ⟨404, [("h", "v")], "abc", 7⟩ rfl

/-- Unfolding of the bracket scan on a non-bracket head. -/
theorem replaceBrackets_cons_of_ne (c : Char) (rest : List Char) (h : ¬c = '[') :
    replaceBrackets (c :: rest) = c :: replaceBrackets rest := by
  conv_lhs => rw [replaceBrackets.eq_def]
  show (if c = '[' then
      if rest.takeWhile isWordChar ≠ [] ∧ (rest.dropWhile isWordChar).head? = some ']' then
        '.' :: (rest.takeWhile isWordChar ++ replaceBrackets (rest.dropWhile isWordChar).tail)
      else c :: replaceBrackets rest
    else c :: replaceBrackets rest) = c :: replaceBrackets rest
  rw [if_neg h]

/-- Unfolding of the bracket scan on a bracket head. -/
theorem replaceBrackets_cons_lbracket (rest : List Char) :
    replaceBrackets ('[' :: rest)
      = if rest.takeWhile isWordChar ≠ [] ∧ (rest.dropWhile isWordChar).head? = some ']' then
          '.' :: (rest.takeWhile isWordChar ++ replaceBrackets (rest.dropWhile isWordChar).tail)
        else '[' :: replaceBrackets rest := by
  conv_lhs => rw [replaceBrackets.eq_def]
  show (if ('[' : Char) = '[' then
      if rest.takeWhile isWordChar ≠ [] ∧ (rest.dropWhile isWordChar).head? = some ']' then
        '.' :: (rest.takeWhile isWordChar ++ replaceBrackets (rest.dropWhile isWordChar).tail)
      else '[' :: replaceBrackets rest
    else '[' :: replaceBrackets rest) = _
  rw [if_pos rfl]

/-- A dropWhile residue starts with a character failing the predicate. -/
theorem dropWhile_head_false (q : Char → Bool) :
    ∀ (l : List Char) (b : Char) (t : List Char), l.dropWhile q = b :: t → q b = false := by
  intro l
  induction l with
  | nil => intro b t h; simp at h
  | cons c l' ih =>
      intro b t h
      rw [List.dropWhile_cons] at h
      by_cases hq : q c = true
      · rw [if_pos hq] at h
        exact ih b t h
      · rw [if_neg hq] at h
        injection h with h1 h2
        subst h1
        exact Bool.eq_false_iff.mpr hq

/-- When dropWhile leaves a residue, appending to the list changes neither
the takeWhile prefix nor the residue head. -/
theorem takeWhile_dropWhile_append_stuck (q : Char → Bool) :
    ∀ (l : List Char) (b : Char) (t m : List Char), l.dropWhile q = b :: t →
      (l ++ m).takeWhile q = l.takeWhile q ∧ (l ++ m).dropWhile q = b :: (t ++ m) := by
  intro l
  induction l with
  | nil => intro b t m h; simp at h
  | cons c l' ih =>
      intro b t m h
      rw [List.dropWhile_cons] at h
      by_cases hq : q c = true
      · rw [if_pos hq] at h
        obtain ⟨h1, h2⟩ := ih b t m h
        constructor
        · show List.takeWhile q (c :: (l' ++ m)) = List.takeWhile q (c :: l')
          rw [List.takeWhile_cons_of_pos hq, List.takeWhile_cons_of_pos hq, h1]
        · show List.dropWhile q (c :: (l' ++ m)) = b :: (t ++ m)
          rw [List.dropWhile_cons_of_pos hq, h2]
      · rw [if_neg hq] at h
        injection h with h1 h2
        subst h1
        subst h2
        constructor
        · show List.takeWhile q (c :: (l' ++ m)) = List.takeWhile q (c :: l')
          rw [List.takeWhile_cons_of_neg hq, List.takeWhile_cons_of_neg hq]
        · show List.dropWhile q (c :: (l' ++ m)) = c :: (l' ++ m)
          rw [List.dropWhile_cons_of_neg hq]

/-- Word characters pass through the bracket scan untouched. -/
theorem replaceBrackets_word_append :
    ∀ (n : List Char), (∀ c ∈ n, isWordChar c = true) →
      ∀ s : List Char, replaceBrackets (n ++ s) = n ++ replaceBrackets s := by
  intro n
  induction n with
  | nil => intro _ s; rfl
  | cons c t ih =>
      intro hw s
      have hc : isWordChar c = true := hw c (List.mem_cons_self c t)
      have hcne : ¬c = '[' := by
        intro h
        subst h
        exact absurd hc (by decide)
      show replaceBrackets (c :: (t ++ s)) = c :: (t ++ replaceBrackets s)
      rw [replaceBrackets_cons_of_ne c _ hcne,
        ih (fun x hx => hw x (List.mem_cons_of_mem _ hx)) s]

/-- The bracket scan turns a leading bracketed word group into a dot
segment. -/
theorem replaceBrackets_bridge_nil (n : List Char) (hn : n ≠ [])
    (hw : ∀ c ∈ n, isWordChar c = true) (s : List Char) :
    replaceBrackets ('[' :: (n ++ ']' :: s)) = '.' :: (n ++ replaceBrackets s) := by
  rw [replaceBrackets_cons_lbracket]
  have htw : (n ++ ']' :: s).takeWhile isWordChar = n := by
    rw [List.takeWhile_append_of_pos hw, List.takeWhile_cons_of_neg (by decide), List.append_nil]
  have hdw : (n ++ ']' :: s).dropWhile isWordChar = ']' :: s := by
    rw [List.dropWhile_append_of_pos hw, List.dropWhile_cons_of_neg (by decide)]
  rw [htw, hdw, if_pos ⟨hn, rfl⟩]
  rfl

/-- Core bridge: a bracketed word group anywhere in the path rewrites to the
same normalized characters as its dotted form, whatever precedes or follows
it. -/
theorem replaceBrackets_bridge (n : List Char) (hn : n ≠ [])
    (hw : ∀ c ∈ n, isWordChar c = true) :
    ∀ (k : Nat) (p : List Char), p.length ≤ k → ∀ s : List Char,
      replaceBrackets (p ++ '[' :: (n ++ ']' :: s))
        = replaceBrackets (p ++ '.' :: (n ++ s)) := by
  intro k
  induction k with
  | zero =>
      intro p hp s
      have hpe : p = [] := List.length_eq_zero.mp (Nat.le_zero.mp hp)
      subst hpe
      show replaceBrackets ('[' :: (n ++ ']' :: s)) = replaceBrackets ('.' :: (n ++ s))
      rw [replaceBrackets_bridge_nil n hn hw s,
        replaceBrackets_cons_of_ne '.' _ (by decide),
        replaceBrackets_word_append n hw s]
  | succ k ih =>
      intro p hp s
      cases p with
      | nil =>
          show replaceBrackets ('[' :: (n ++ ']' :: s)) = replaceBrackets ('.' :: (n ++ s))
          rw [replaceBrackets_bridge_nil n hn hw s,
            replaceBrackets_cons_of_ne '.' _ (by decide),
            replaceBrackets_word_append n hw s]
      | cons a p' =>
          have hp' : p'.length ≤ k := by
            simp only [List.length_cons] at hp
            omega
          by_cases ha : a = '['
          · subst ha
            show replaceBrackets ('[' :: (p' ++ '[' :: (n ++ ']' :: s)))
              = replaceBrackets ('[' :: (p' ++ '.' :: (n ++ s)))
            rw [replaceBrackets_cons_lbracket, replaceBrackets_cons_lbracket]
            rcases hdw : p'.dropWhile isWordChar with _ | ⟨b, t⟩
            · have hall : ∀ c ∈ p', isWordChar c = true :=
                fun c hc => List.dropWhile_eq_nil_iff.mp hdw c hc
              have htwL : (p' ++ '[' :: (n ++ ']' :: s)).takeWhile isWordChar = p' := by
                rw [List.takeWhile_append_of_pos hall,
                  List.takeWhile_cons_of_neg (by decide), List.append_nil]
              have htwR : (p' ++ '.' :: (n ++ s)).takeWhile isWordChar = p' := by
                rw [List.takeWhile_append_of_pos hall,
                  List.takeWhile_cons_of_neg (by decide), List.append_nil]
              have hdwL : (p' ++ '[' :: (n ++ ']' :: s)).dropWhile isWordChar
                  = '[' :: (n ++ ']' :: s) := by
                rw [List.dropWhile_append_of_pos hall, List.dropWhile_cons_of_neg (by decide)]
              have hdwR : (p' ++ '.' :: (n ++ s)).dropWhile isWordChar = '.' :: (n ++ s) := by
                rw [List.dropWhile_append_of_pos hall, List.dropWhile_cons_of_neg (by decide)]
              rw [htwL, htwR, hdwL, hdwR]
              have hcL : ¬(p' ≠ [] ∧ ('[' :: (n ++ ']' :: s)).head? = some ']') := by
                rintro ⟨-, h⟩
                simp at h
              have hcR : ¬(p' ≠ [] ∧ ('.' :: (n ++ s)).head? = some ']') := by
                rintro ⟨-, h⟩
                simp at h
              rw [if_neg hcL, if_neg hcR]
              exact congrArg (List.cons '[') (ih p' hp' s)
            · obtain ⟨htwL', hdwL'⟩ :=
                takeWhile_dropWhile_append_stuck isWordChar p' b t ('[' :: (n ++ ']' :: s)) hdw
              obtain ⟨htwR', hdwR'⟩ :=
                takeWhile_dropWhile_append_stuck isWordChar p' b t ('.' :: (n ++ s)) hdw
              rw [htwL', htwR', hdwL', hdwR']
              by_cases hcond : p'.takeWhile isWordChar ≠ [] ∧ b = ']'
              · obtain ⟨hne, hb⟩ := hcond
                subst hb
                rw [if_pos ⟨hne, rfl⟩, if_pos ⟨hne, rfl⟩]
                simp only [List.tail_cons]
                have ht : t.length ≤ k := by
                  have h1 := length_dropWhile_le_self isWordChar p'
                  rw [hdw] at h1
                  simp only [List.length_cons] at h1
                  omega
                exact congrArg (fun l => '.' :: (p'.takeWhile isWordChar ++ l)) (ih t ht s)
              · have hcL : ¬(p'.takeWhile isWordChar ≠ []
                    ∧ (b :: (t ++ '[' :: (n ++ ']' :: s))).head? = some ']') := by
                  rintro ⟨h1, h2⟩
                  simp only [List.head?_cons, Option.some.injEq] at h2
                  exact hcond ⟨h1, h2⟩
                have hcR : ¬(p'.takeWhile isWordChar ≠ []
                    ∧ (b :: (t ++ '.' :: (n ++ s))).head? = some ']') := by
                  rintro ⟨h1, h2⟩
                  simp only [List.head?_cons, Option.some.injEq] at h2
                  exact hcond ⟨h1, h2⟩
                rw [if_neg hcL, if_neg hcR]
                exact congrArg (List.cons '[') (ih p' hp' s)
          · show replaceBrackets (a :: (p' ++ '[' :: (n ++ ']' :: s)))
              = replaceBrackets (a :: (p' ++ '.' :: (n ++ s)))
            rw [replaceBrackets_cons_of_ne a _ ha, replaceBrackets_cons_of_ne a _ ha,
              ih p' hp' s]

/-- The bridge survives the dollar strip at the head of the path. -/
theorem stripDollar_bridge (n : List Char) (hn : n ≠ [])
    (hw : ∀ c ∈ n, isWordChar c = true) (p s : List Char) :
    replaceBrackets (stripDollar (p ++ '[' :: (n ++ ']' :: s)))
      = replaceBrackets (stripDollar (p ++ '.' :: (n ++ s))) := by
  cases p with
  | nil =>
      show replaceBrackets (if ('[' : Char) = '$' then n ++ ']' :: s
          else '[' :: (n ++ ']' :: s))
        = replaceBrackets (if ('.' : Char) = '$' then n ++ s else '.' :: (n ++ s))
      rw [if_neg (by decide), if_neg (by decide)]
      exact replaceBrackets_bridge n hn hw 0 [] (Nat.le_refl 0) s
  | cons a p' =>
      show replaceBrackets (if a = '$' then p' ++ '[' :: (n ++ ']' :: s)
          else a :: (p' ++ '[' :: (n ++ ']' :: s)))
        = replaceBrackets (if a = '$' then p' ++ '.' :: (n ++ s)
          else a :: (p' ++ '.' :: (n ++ s)))
      by_cases ha : a = '$'
      · rw [if_pos ha, if_pos ha]
        exact replaceBrackets_bridge n hn hw p'.length p' (Nat.le_refl _) s
      · rw [if_neg ha, if_neg ha]
        exact replaceBrackets_bridge n hn hw (a :: p').length (a :: p') (Nat.le_refl _) s

/-- Character-level form of the claim: extraction cannot tell a bracketed
word group from its dotted form anywhere in the path. -/
theorem extractJsonPathChars_bridge (doc : Json) (n : List Char) (hn : n ≠ [])
    (hw : ∀ c ∈ n, isWordChar c = true) (p s : List Char) :
    extractJsonPathChars doc (p ++ '[' :: (n ++ ']' :: s))
      = extractJsonPathChars doc (p ++ '.' :: (n ++ s)) := by
  unfold extractJsonPathChars pathSegments
  rw [stripDollar_bridge n hn hw p s]

/-- C8: bracket index syntax is sugar for a dotted segment: for every
document and every path split p, bracket group n (word characters), suffix
s, extraction of p[n]s equals extraction of p.ns; in particular
extract(doc, tags[0]) equals extract(doc, tags.0) for every doc. -/
theorem claim8_bracket_normalization (doc : Json) (p n s : String)
    (hn : n.data ≠ []) (hw : ∀ c ∈ n.data, isWordChar c = true) :
    extractJsonPath doc (p ++ "[" ++ n ++ "]" ++ s)
      = extractJsonPath doc (p ++ "." ++ n ++ s) := by
  unfold extractJsonPath
  have hL : (p ++ "[" ++ n ++ "]" ++ s).data
      = p.data ++ '[' :: (n.data ++ ']' :: s.data) := by
    show ((((p.data ++ ['[']) ++ n.data) ++ [']']) ++ s.data)
      = p.data ++ '[' :: (n.data ++ ']' :: s.data)
    simp [List.append_assoc]
  have hR : (p ++ "." ++ n ++ s).data = p.data ++ '.' :: (n.data ++ s.data) := by
    show (((p.data ++ ['.']) ++ n.data) ++ s.data) = p.data ++ '.' :: (n.data ++ s.data)
    simp [List.append_assoc]
  rw [hL, hR]
  exact extractJsonPathChars_bridge doc n.data hn hw p.data s.data

/-- Witness for C8 at the path tags bracket zero over the tag document. -/
theorem claim8_witness :
    extractJsonPath tagsDoc ("tags" ++ "[" ++ "0" ++ "]" ++ "")
      = extractJsonPath tagsDoc ("tags" ++ "." ++ "0" ++ "") :=
  claim8_bracket_normalization tagsDoc "tags" "0" "" (by decide) (by decide)

end StatusChecker
